import Mathlib

/-!
Verification of the route compiler of the rest-api-client library.

The development shallowly embeds the runtime behaviour of the route
compiler (`make` and its helpers `getHeaders`, `parseResponse`,
`getResponse`, `getError`), the per-method constructors, the `Client`
default-merging, and the base-URL/bearer-token request rewriter `layer`.

Modelling conventions:
* JSON wire values, descriptor parameters and error payloads all live in
  one inductive `Json` universe; the schema capability is a pair of
  encode/decode functions over it.
* Effects are modelled as explicit `Except` values; the HTTP transport is
  an injected function from requests to `Except TransportFailure Response`.
* JavaScript optional fields are `Option`; the tri-state of an object key
  (absent, present holding undefined, present holding a value) is the
  `JsField` type, so object-spread semantics can be stated faithfully.
* The source casts a function-valued url/headers descriptor to the raw
  value when the parameter bag lacks the matching field; the `UrlVal` and
  `HeadersVal` sums keep that raw-function case representable.
-/

namespace HttpApiClient

/-- JSON-like wire values: the universe of payloads, descriptor parameters
and error values. -/
inductive Json where
  | null
  | bool (b : Bool)
  | num (n : Int)
  | str (s : String)
  | arr (xs : List Json)
  | obj (fields : List (String × Json))

/-- Header sets, keyed by (lowercase) header names, as association lists. -/
abbrev Headers := List (String × String)

/-- Write a header, replacing any existing entry with the same name
(record-assignment semantics of the platform Headers.set). -/
def setHeader (hs : Headers) (k v : String) : Headers :=
  (k, v) :: hs.filter (fun p => p.1 != k)

/-- The schema capability: decode wire JSON into a typed value and encode a
typed value into wire JSON, each failing with a ParseError message. -/
structure JSchema where
  dec : Json → Except String Json
  enc : Json → Except String Json

/-- HTTP methods used by the per-method constructors. -/
inductive Method where
  | GET
  | POST
  | PUT
  | DELETE
deriving DecidableEq

/-- A raw HTTP response as seen by the compiled route: numeric status,
headers, and the result of reading the body as JSON (`res.json`, which may
fail with a ResponseError payload). -/
structure Response where
  status : Nat
  headers : Headers
  json : Except Json Json

/-- A route URL descriptor: a static string or a parameter-driven function. -/
inductive UrlDesc where
  | str (s : String)
  | fn (f : Json → String)

/-- A headers descriptor: a static header set, or a function of the
headers parameter returning an effect that yields headers or fails. -/
inductive HeadersDesc where
  | static (h : Headers)
  | fn (f : Json → Except Json Headers)

/-- A response descriptor: a schema to decode the JSON body against, or a
function of the raw response returning an effect. -/
inductive OutputDesc where
  | schema (s : JSchema)
  | fn (f : Response → Except Json Json)

/-- An error descriptor: a schema to decode the JSON error body against,
or a synchronous function of the raw response producing the error value. -/
inductive ErrorDesc where
  | schema (s : JSchema)
  | fn (f : Response → Json)

/-- The internal route record built by the constructors; optional fields
model the optional properties of the source Route class, with `none`
standing for undefined. -/
structure Route where
  url : UrlDesc
  method : Method
  headers : Option HeadersDesc := none
  body : Option JSchema := none
  response : Option OutputDesc := none
  error : Option ErrorDesc := none
  filterStatusOk : Option Bool := none

/-- The caller-supplied parameter bag; each field may be absent, mirroring
the JavaScript key-membership test on the params object. -/
structure ParamBag where
  url : Option Json := none
  headers : Option Json := none
  body : Option Json := none

/-- The whole parameter bag may itself be absent (a route needing no
parameters is called with nothing). -/
abbrev Params := Option ParamBag

/-- JavaScript truthiness of an optional boolean flag: undefined is falsy. -/
def truthy (o : Option Bool) : Bool := o.getD false

/-- A resolved request URL: either an actual string, or the raw descriptor
function that the source casts to a string when the url parameter is
missing. -/
inductive UrlVal where
  | str (s : String)
  | rawFn (f : Json → String)

/-- A resolved header set: actual headers, or the raw descriptor function
that the source casts to Headers when the headers parameter is missing. -/
inductive HeadersVal where
  | hs (h : Headers)
  | rawFn (f : Json → Except Json Headers)

/-- The assembled transport-level request. -/
structure Request where
  method : Method
  url : UrlVal
  headers : Option HeadersVal
  body : Option Json

/-- Failures produced below the compiler by the transport capability. -/
inductive TransportFailure where
  | network (e : String)
  | statusNotOk (res : Response)

/-- The failure channel of a compiled-route invocation. -/
inductive Failure where
  | headerFn (e : Json)
  | encode (e : String)
  | responseError (e : Json)
  | decode (e : String)
  | business (e : Json)
  | respFn (e : Json)
  | transport (t : TransportFailure)

/-- The success channel of a compiled-route invocation: the raw response
when no response descriptor is declared, a decoded value otherwise. -/
inductive Output where
  | raw (res : Response)
  | val (j : Json)

/-- The injected HTTP transport capability. -/
abbrev Transport := Request → Except TransportFailure Response

/-- getHeaders of make: absent headers contribute nothing; a function
descriptor is invoked with the headers parameter only when the parameter
bag carries one, and is otherwise returned raw (the source casts the
function itself to Headers); a static descriptor is returned as-is. -/
def getHeaders (hd : Option HeadersDesc) (params : Params) :
    Except Failure (Option HeadersVal) :=
  match hd with
  | none => .ok none
  | some d =>
    match d, params.bind (·.headers) with
    | .fn f, some arg =>
      match f arg with
      | .error e => .error (.headerFn e)
      | .ok h => .ok (some (.hs h))
    | .fn f, none => .ok (some (.rawFn f))
    | .static h, _ => .ok (some (.hs h))

/-- parseResponse of make: read the response body as JSON, then decode the
value against the schema. -/
def parseResponse (s : JSchema) (res : Response) : Except Failure Json :=
  match res.json with
  | .error e => .error (.responseError e)
  | .ok j =>
    match s.dec j with
    | .error pe => .error (.decode pe)
    | .ok v => .ok v

/-- getResponse of make: no descriptor returns the raw response; a
function descriptor runs its effect on the raw response; a schema
descriptor decodes the JSON body. -/
def getResponse (getter : Option OutputDesc) (res : Response) :
    Except Failure Output :=
  match getter with
  | none => .ok (.raw res)
  | some (.fn f) =>
    match f res with
    | .error e => .error (.respFn e)
    | .ok v => .ok (.val v)
  | some (.schema s) =>
    match parseResponse s res with
    | .error e => .error e
    | .ok v => .ok (.val v)

/-- getError of make: a function descriptor fails with its synchronous
result applied to the raw response; a schema descriptor decodes the JSON
body and fails with the decoded value, or with the decode failure itself.
It never succeeds, so it returns the failure directly. -/
def getError (getter : ErrorDesc) (res : Response) : Failure :=
  match getter with
  | .fn f => .business (f res)
  | .schema s =>
    match parseResponse s res with
    | .error e => e
    | .ok v => .business v

/-- URL resolution in make: a function descriptor is applied to the url
parameter when the bag carries one, and otherwise used raw (the source
casts it to a string); a static string is used as-is. -/
def resolveUrl (u : UrlDesc) (params : Params) : UrlVal :=
  match u, params.bind (·.url) with
  | .fn f, some a => .str (f a)
  | .fn f, none => .rawFn f
  | .str s, _ => .str s

/-- Body resolution in make: engaged only when a body schema is declared
and the parameter bag carries a body field; the value is then encoded
against the schema, a failure becoming an EncodeError. -/
def resolveBody (b : Option JSchema) (params : Params) :
    Except Failure (Option Json) :=
  match b, params.bind (·.body) with
  | some s, some v =>
    match s.enc v with
    | .error e => .error (.encode e)
    | .ok j => .ok (some j)
  | _, _ => .ok none

/-- Assembly of the outgoing request inside make: resolved URL, then
resolved headers, then encoded body, in source order. -/
def assemble (spec : Route) (params : Params) : Except Failure Request :=
  let url := resolveUrl spec.url params
  match getHeaders spec.headers params with
  | .error e => .error e
  | .ok headers =>
    match resolveBody spec.body params with
    | .error e => .error e
    | .ok bodyJson =>
      .ok { method := spec.method, url := url, headers := headers, body := bodyJson }

/-- Modelled from the spec: the transport-layer status filter
(HttpClient.filterStatusOk of the effect platform, an injected capability
outside this repository). A response with status outside 200-299 becomes a
transport-level failure before classification runs. -/
def filterStatusOkClient (t : Transport) : Transport := fun req =>
  match t req with
  | .error e => .error e
  | .ok res =>
    if 200 ≤ res.status ∧ res.status < 300 then .ok res
    else .error (.statusNotOk res)

/-- The FAILED-classification test of make: filterStatusOk falsy, an error
descriptor present, and the numeric status below 200 or at least 300. -/
def classifyFailed (spec : Route) (res : Response) : Bool :=
  !truthy spec.filterStatusOk && spec.error.isSome &&
    (decide (res.status < 200) || decide (300 ≤ res.status))

/-- The compiled callable returned by make: assemble the request, execute
it through the client (status-filtered when filterStatusOk is truthy),
then run getError when classified FAILED, getResponse otherwise. -/
def make (spec : Route) (transport : Transport) (params : Params) :
    Except Failure Output :=
  match assemble spec params with
  | .error e => .error e
  | .ok request =>
    let client :=
      if truthy spec.filterStatusOk then filterStatusOkClient transport
      else transport
    match client request with
    | .error t => .error (.transport t)
    | .ok response =>
      if classifyFailed spec response then
        match spec.error with
        | some e => .error (getError e response)
        | none => getResponse spec.response response
      else getResponse spec.response response

/-- JavaScript object-field tri-state: key absent, key present holding
undefined, or key present holding a value. -/
inductive JsField (α : Type) where
  | absent
  | presentUndefined
  | present (a : α)
deriving DecidableEq

/-- Value-or-undefined read of an object field. -/
def JsField.val {α : Type} : JsField α → Option α
  | .present a => some a
  | _ => none

/-- Object-spread semantics: the later object wins whenever its key is
present, even when the key holds undefined. -/
def JsField.spreadOver {α : Type} (f : JsField α) (dflt : Option α) : Option α :=
  match f with
  | .absent => dflt
  | .presentUndefined => none
  | .present a => some a

/-- A per-call maker spec as passed to the get/post/put/del constructors;
every optional key is tri-state so spread semantics are observable. -/
structure MakerSpec where
  url : UrlDesc
  headers : JsField HeadersDesc := .absent
  body : JsField JSchema := .absent
  response : JsField OutputDesc := .absent
  error : JsField ErrorDesc := .absent
  filterStatusOk : JsField Bool := .absent

/-- The free-function constructors get/post/put/del: spread the per-call
spec into a new Route and fix the method. -/
def freeRoute (m : Method) (spec : MakerSpec) : Route :=
  { url := spec.url
    method := m
    headers := spec.headers.val
    body := spec.body.val
    response := spec.response.val
    error := spec.error.val
    filterStatusOk := spec.filterStatusOk.val }

/-- A client instance: stored default headers and error descriptor, each
possibly undefined. -/
structure Client where
  headers : Option HeadersDesc := none
  error : Option ErrorDesc := none

/-- The route built by every client method: the object literal writes the
client defaults for headers and error first, spreads the per-call spec
over them, then fixes the method. -/
def Client.route (c : Client) (m : Method) (spec : MakerSpec) : Route :=
  { url := spec.url
    method := m
    headers := spec.headers.spreadOver c.headers
    body := spec.body.val
    response := spec.response.val
    error := spec.error.spreadOver c.error
    filterStatusOk := spec.filterStatusOk.val }

/-- client.get. -/
def Client.get (c : Client) (spec : MakerSpec) : Route := c.route .GET spec

/-- client.post. -/
def Client.post (c : Client) (spec : MakerSpec) : Route := c.route .POST spec

/-- client.put. -/
def Client.put (c : Client) (spec : MakerSpec) : Route := c.route .PUT spec

/-- client.del. -/
def Client.del (c : Client) (spec : MakerSpec) : Route := c.route .DELETE spec

/-- Configuration consumed by the request rewriter layer. -/
structure Config where
  url : String
  accessToken : Option String

/-- An outgoing transport-level request as seen by the rewriter. -/
structure HttpRequest where
  url : String
  headers : Headers

/-- The test url.startsWith of the source, specialised to the one-character
prefix slash and computed on the character list so it evaluates. -/
def startsWithSlash (s : String) : Bool :=
  match s.data with
  | [] => false
  | c :: _ => c == '/'

/-- First mapRequestInput rule of the layer: prepend the configured base
URL when the request URL starts with a slash. -/
def prependBaseUrl (cfg : Config) (req : HttpRequest) : HttpRequest :=
  if startsWithSlash req.url then { req with url := cfg.url ++ req.url } else req

/-- Second mapRequestInput rule of the layer: set the bearer-token header
when the configured access token is truthy (the source tests JavaScript
truthiness, under which both undefined and the empty string are falsy). -/
def setBearerToken (cfg : Config) (req : HttpRequest) : HttpRequest :=
  match cfg.accessToken with
  | some tok =>
    if tok.isEmpty then req
    else { req with headers := setHeader req.headers "authorization" ("Bearer " ++ tok) }
  | none => req

/-- The full rewriter applied to every outgoing request: the bearer-token
rule composed with the base-URL rule. -/
def rewrite (cfg : Config) (req : HttpRequest) : HttpRequest :=
  prependBaseUrl cfg (setBearerToken cfg req)

/-- C1: with filterStatusOk falsy (false or absent), the compiled route
takes the error path iff an error descriptor is present and the response
status is below 200 or at least 300; in every other case the response
flows into getResponse as-is, so a caller without an error descriptor
receives the raw-or-resolved response even for a bad status. -/
theorem make_classification (spec : Route) (params : Params) (res : Response)
    (h : Option HeadersVal) (b : Option Json)
    (hf : truthy spec.filterStatusOk = false)
    (hh : getHeaders spec.headers params = .ok h)
    (hb : resolveBody spec.body params = .ok b) :
    make spec (fun _ => .ok res) params =
      match spec.error with
      | some e =>
        if res.status < 200 ∨ 300 ≤ res.status then .error (getError e res)
        else getResponse spec.response res
      | none => getResponse spec.response res := by
  cases he : spec.error with
  | none =>
    simp [make, assemble, hh, hb, hf, classifyFailed, he]
  | some e =>
    by_cases hs : res.status < 200 ∨ 300 ≤ res.status
    · simp [make, assemble, hh, hb, hf, classifyFailed, he, hs]
    · push_neg at hs
      simp [make, assemble, hh, hb, hf, classifyFailed, he,
        Nat.not_lt.mpr hs.1, Nat.not_le.mpr hs.2, Nat.not_lt.mpr (Nat.le_of_lt hs.2)]

/-- Closed instance of make_classification: a 404 response on a route with
no error descriptor flows into getResponse and yields the raw response. -/
theorem make_classification_witness :
    make { url := .str "/x", method := .GET }
        (fun _ => .ok { status := 404, headers := [], json := .error .null })
        none
      = .ok (.raw { status := 404, headers := [], json := .error .null }) := by
  have := make_classification { url := .str "/x", method := .GET } none
    { status := 404, headers := [], json := .error .null } none none rfl rfl rfl
  simpa [getResponse] using this

/-- C2: on a FAILED classification the invocation fails with the value
produced by getError: a function descriptor gives exactly the function
applied to the raw response (no decoding); a schema descriptor decodes the
JSON body and fails with the decoded value on success and with the decode
error on failure; in no case does a FAILED classification succeed. -/
theorem make_failed_error_resolution (spec : Route) (params : Params)
    (res : Response) (ed : ErrorDesc) (h : Option HeadersVal) (b : Option Json)
    (hf : truthy spec.filterStatusOk = false)
    (he : spec.error = some ed)
    (hs : res.status < 200 ∨ 300 ≤ res.status)
    (hh : getHeaders spec.headers params = .ok h)
    (hb : resolveBody spec.body params = .ok b) :
    make spec (fun _ => .ok res) params = .error (getError ed res)
    ∧ (∀ f, ed = .fn f → getError ed res = .business (f res))
    ∧ (∀ s j v, ed = .schema s → res.json = .ok j → s.dec j = .ok v →
        getError ed res = .business v)
    ∧ (∀ s j pe, ed = .schema s → res.json = .ok j → s.dec j = .error pe →
        getError ed res = .decode pe) := by
  refine ⟨?_, ?_, ?_, ?_⟩
  · simp [make, assemble, hh, hb, hf, classifyFailed, he, hs]
  · rintro f rfl
    rfl
  · rintro s j v rfl hj hd
    simp [getError, parseResponse, hj, hd]
  · rintro s j pe rfl hj hd
    simp [getError, parseResponse, hj, hd]

/-- Closed instance of make_failed_error_resolution: a 500 response on a
route whose error descriptor is a function fails with the function applied
to the raw response. -/
theorem make_failed_error_resolution_witness :
    make { url := .str "/x", method := .GET,
           error := some (.fn (fun r => Json.num (Int.ofNat r.status))) }
        (fun _ => .ok { status := 500, headers := [], json := .error .null })
        none
      = .error (.business (Json.num 500)) := by
  have := make_failed_error_resolution
    { url := .str "/x", method := .GET,
      error := some (.fn (fun r => Json.num (Int.ofNat r.status))) }
    none { status := 500, headers := [], json := .error .null }
    (.fn (fun r => Json.num (Int.ofNat r.status))) none none
    rfl rfl (Or.inr (by norm_num)) rfl rfl
  simpa [getError] using this.1

/-- C3: on an OK classification the outcome of the invocation is exactly
getResponse applied to the response as-is; with no response descriptor it
is the raw response (a 204 never triggers a decode attempt), with a
function descriptor it is the outcome of the function on the raw response,
and with a schema descriptor the decoded JSON body on success and a decode
error on failure. -/
theorem make_ok_response_resolution (spec : Route) (params : Params)
    (res : Response) (h : Option HeadersVal) (b : Option Json)
    (hf : truthy spec.filterStatusOk = false)
    (hok : spec.error = none ∨ (200 ≤ res.status ∧ res.status < 300))
    (hh : getHeaders spec.headers params = .ok h)
    (hb : resolveBody spec.body params = .ok b) :
    make spec (fun _ => .ok res) params = getResponse spec.response res
    ∧ (spec.response = none → getResponse spec.response res = .ok (.raw res))
    ∧ (∀ f, spec.response = some (.fn f) →
        getResponse spec.response res =
          match f res with
          | .error e => .error (.respFn e)
          | .ok v => .ok (.val v))
    ∧ (∀ s j v, spec.response = some (.schema s) → res.json = .ok j →
        s.dec j = .ok v → getResponse spec.response res = .ok (.val v))
    ∧ (∀ s j pe, spec.response = some (.schema s) → res.json = .ok j →
        s.dec j = .error pe → getResponse spec.response res = .error (.decode pe)) := by
  refine ⟨?_, ?_, ?_, ?_, ?_⟩
  · rcases hok with he | hgood
    · simp [make, assemble, hh, hb, hf, classifyFailed, he]
    · cases he : spec.error with
      | none => simp [make, assemble, hh, hb, hf, classifyFailed, he]
      | some e =>
        simp [make, assemble, hh, hb, hf, classifyFailed, he,
          Nat.not_lt.mpr hgood.1, Nat.not_le.mpr hgood.2]
  · intro hr
    rw [hr]
    rfl
  · intro f hr
    rw [hr]
    rfl
  · intro s j v hr hj hd
    simp [hr, getResponse, parseResponse, hj, hd]
  · intro s j pe hr hj hd
    simp [hr, getResponse, parseResponse, hj, hd]

/-- Closed instance of make_ok_response_resolution: a 204 response on a
route with no response descriptor succeeds with the raw response object. -/
theorem make_ok_response_resolution_witness :
    make { url := .str "/x", method := .GET }
        (fun _ => .ok { status := 204, headers := [], json := .error .null })
        none
      = .ok (.raw { status := 204, headers := [], json := .error .null }) := by
  have := make_ok_response_resolution { url := .str "/x", method := .GET }
    none { status := 204, headers := [], json := .error .null } none none
    rfl (Or.inl rfl) rfl rfl
  exact this.1.trans (this.2.1 rfl)

/-- C4: with filterStatusOk truthy the error descriptor is never consulted
(the compiled callable behaves identically with the descriptor erased),
and a response whose status is outside 200-299 is turned into a
transport-level failure by the status filter before classification. -/
theorem make_filterStatusOk (spec : Route) (t : Transport) (params : Params)
    (hf : truthy spec.filterStatusOk = true) :
    make spec t params = make { spec with error := none } t params
    ∧ (∀ req res, assemble spec params = .ok req → t req = .ok res →
        ¬(200 ≤ res.status ∧ res.status < 300) →
        make spec t params = .error (.transport (.statusNotOk res))) := by
  have hassem : assemble { spec with error := none } params = assemble spec params := rfl
  have hf2 : truthy ({ spec with error := none } : Route).filterStatusOk = true := hf
  constructor
  · unfold make
    rw [hassem]
    cases hA : assemble spec params with
    | error e => rfl
    | ok req =>
      simp only [hf, hf2, if_pos]
      cases hC : filterStatusOkClient t req with
      | error e => rfl
      | ok response => simp [classifyFailed, hf, hf2]
  · intro req res hA ht hbad
    unfold make
    simp only [hA, hf, if_pos]
    simp [filterStatusOkClient, ht, hbad]

/-- Closed instance of make_filterStatusOk: with filterStatusOk true and
an error descriptor present, a 404 response becomes a transport-level
statusNotOk failure, not a business error. -/
theorem make_filterStatusOk_witness :
    make { url := .str "/x", method := .GET,
           error := some (.fn (fun _ => Json.null)),
           filterStatusOk := some true }
        (fun _ => .ok { status := 404, headers := [], json := .error .null })
        none
      = .error (.transport (.statusNotOk
          { status := 404, headers := [], json := .error .null })) := by
  exact (make_filterStatusOk
    { url := .str "/x", method := .GET,
      error := some (.fn (fun _ => Json.null)), filterStatusOk := some true }
    (fun _ => .ok { status := 404, headers := [], json := .error .null })
    none rfl).2
    { method := .GET, url := .str "/x", headers := none, body := none }
    { status := 404, headers := [], json := .error .null }
    rfl rfl (by decide)

/-- C5: a request body is attached iff the spec declares a body schema and
the call parameters carry a body field; the value is then encoded against
the schema into the request body, an encode failure failing the invocation
with an EncodeError for every transport (so before any request is sent);
with the descriptor absent or the body parameter omitted the assembled
request carries no body. -/
theorem body_attachment (spec : Route) (params : Params) (h : Option HeadersVal)
    (hh : getHeaders spec.headers params = .ok h) :
    (∀ s v, spec.body = some s → params.bind (·.body) = some v →
      (∀ j, s.enc v = .ok j →
        assemble spec params =
          .ok { method := spec.method, url := resolveUrl spec.url params,
                headers := h, body := some j })
      ∧ (∀ e, s.enc v = .error e → ∀ t, make spec t params = .error (.encode e)))
    ∧ ((spec.body = none ∨ params.bind (·.body) = none) →
      assemble spec params =
        .ok { method := spec.method, url := resolveUrl spec.url params,
              headers := h, body := none }) := by
  constructor
  · intro s v hbody hparam
    constructor
    · intro j henc
      simp [assemble, hh, resolveBody, hbody, hparam, henc]
    · intro e henc t
      simp [make, assemble, hh, resolveBody, hbody, hparam, henc]
  · intro habsent
    rcases habsent with hbody | hparam
    · simp [assemble, hh, resolveBody, hbody]
    · cases hbody : spec.body with
      | none => simp [assemble, hh, resolveBody, hparam]
      | some s => simp [assemble, hh, resolveBody, hbody, hparam]

/-- Closed instance of body_attachment: a body value failing schema
validation fails the invocation with that EncodeError. -/
theorem body_attachment_witness :
    make { url := .str "/x", method := .POST,
           body := some { dec := fun j => .ok j, enc := fun _ => .error "bad" } }
        (fun _ => .error (.network "n"))
        (some { body := some .null })
      = .error (.encode "bad") := by
  exact ((body_attachment
    { url := .str "/x", method := .POST,
      body := some { dec := fun j => .ok j, enc := fun _ => .error "bad" } }
    (some { body := some .null }) none rfl).1
    { dec := fun j => .ok j, enc := fun _ => .error "bad" } .null rfl rfl).2
    "bad" rfl (fun _ => .error (.network "n"))

/-- C6: a client-built route takes the client stored headers and error
exactly when the per-call spec does not supply its own key; a supplied
key overrides the client default for that field only, the two fields
being independent, and every other field of the route is exactly what the
free-function constructor would produce from the spec alone. -/
theorem client_route_defaults (c : Client) (m : Method) (spec : MakerSpec) :
    (spec.headers = .absent → (c.route m spec).headers = c.headers)
    ∧ (spec.headers ≠ .absent →
        (c.route m spec).headers = (freeRoute m spec).headers)
    ∧ (spec.error = .absent → (c.route m spec).error = c.error)
    ∧ (spec.error ≠ .absent →
        (c.route m spec).error = (freeRoute m spec).error)
    ∧ (c.route m spec).url = (freeRoute m spec).url
    ∧ (c.route m spec).method = (freeRoute m spec).method
    ∧ (c.route m spec).body = (freeRoute m spec).body
    ∧ (c.route m spec).response = (freeRoute m spec).response
    ∧ (c.route m spec).filterStatusOk = (freeRoute m spec).filterStatusOk := by
  refine ⟨?_, ?_, ?_, ?_, rfl, rfl, rfl, rfl, rfl⟩
  · intro hs
    simp [Client.route, hs, JsField.spreadOver]
  · intro hs
    cases h : spec.headers with
    | absent => exact absurd h hs
    | presentUndefined => simp [Client.route, freeRoute, h, JsField.spreadOver, JsField.val]
    | present a => simp [Client.route, freeRoute, h, JsField.spreadOver, JsField.val]
  · intro hs
    simp [Client.route, hs, JsField.spreadOver]
  · intro hs
    cases h : spec.error with
    | absent => exact absurd h hs
    | presentUndefined => simp [Client.route, freeRoute, h, JsField.spreadOver, JsField.val]
    | present a => simp [Client.route, freeRoute, h, JsField.spreadOver, JsField.val]

/-- Closed instance of client_route_defaults: a route built without an
explicit error key inherits the client default error descriptor, and one
built with an explicit error key uses its own instead. -/
theorem client_route_defaults_witness :
    (Client.route { error := some (.fn (fun _ => Json.num 1)) } .GET
        { url := .str "/a" }).error = some (.fn (fun _ => Json.num 1))
    ∧ (Client.route { error := some (.fn (fun _ => Json.num 1)) } .GET
        { url := .str "/a",
          error := .present (.fn (fun _ => Json.num 2)) }).error
      = (freeRoute .GET
          { url := .str "/a",
            error := .present (.fn (fun _ => Json.num 2)) }).error := by
  constructor
  · exact (client_route_defaults { error := some (.fn (fun _ => Json.num 1)) }
      .GET { url := .str "/a" }).2.2.1 rfl
  · exact (client_route_defaults { error := some (.fn (fun _ => Json.num 1)) }
      .GET { url := .str "/a",
             error := .present (.fn (fun _ => Json.num 2)) }).2.2.2.1
      (by simp)

/-- C10: because the client defaults are merged by object spread with the
per-call spec last, a per-call key explicitly present but holding
undefined removes the client default for that field, whereas an absent
key inherits it. -/
theorem client_route_undefined_override (c : Client) (m : Method)
    (spec : MakerSpec) :
    (spec.headers = .presentUndefined → (c.route m spec).headers = none)
    ∧ (spec.error = .presentUndefined → (c.route m spec).error = none)
    ∧ (spec.headers = .absent → (c.route m spec).headers = c.headers)
    ∧ (spec.error = .absent → (c.route m spec).error = c.error) := by
  refine ⟨?_, ?_, ?_, ?_⟩ <;> intro hs <;>
    simp [Client.route, hs, JsField.spreadOver]

/-- Closed instance of client_route_undefined_override: an explicitly
undefined error key on the per-call spec erases the client default error
descriptor. -/
theorem client_route_undefined_override_witness :
    (Client.route { error := some (.fn (fun _ => Json.num 1)) } .GET
        { url := .str "/a", error := .presentUndefined }).error = none := by
  exact (client_route_undefined_override
    { error := some (.fn (fun _ => Json.num 1)) } .GET
    { url := .str "/a", error := .presentUndefined }).2.1 rfl

/-- C9: two independent universal statements. For every route whose url
descriptor is a function, when the parameter bag is absent or lacks a url
field the function is not invoked and the raw function value becomes the
request URL, whatever the other descriptors are. Likewise, for every
route whose headers descriptor is a function, when the bag lacks a
headers field the function is not invoked and the raw function value is
used as the header set, whatever the url descriptor is. -/
theorem rawFn_fallback (spec : Route) (params : Params) :
    (∀ f, spec.url = .fn f → params.bind (·.url) = none →
      resolveUrl spec.url params = .rawFn f
      ∧ ∀ h b, getHeaders spec.headers params = .ok h →
          resolveBody spec.body params = .ok b →
          assemble spec params =
            .ok { method := spec.method, url := .rawFn f,
                  headers := h, body := b })
    ∧ (∀ g, spec.headers = some (.fn g) → params.bind (·.headers) = none →
      getHeaders spec.headers params = .ok (some (.rawFn g))
      ∧ ∀ b, resolveBody spec.body params = .ok b →
          assemble spec params =
            .ok { method := spec.method, url := resolveUrl spec.url params,
                  headers := some (.rawFn g), body := b }) := by
  constructor
  · intro f hu hpu
    have hru : resolveUrl spec.url params = .rawFn f := by
      simp [resolveUrl, hu, hpu]
    refine ⟨hru, ?_⟩
    intro h b hh hb
    simp [assemble, hh, hb, hru]
  · intro g hg hph
    have hgh : getHeaders spec.headers params = .ok (some (.rawFn g)) := by
      simp [getHeaders, hg, hph]
    refine ⟨hgh, ?_⟩
    intro b hb
    simp [assemble, hgh, hb]

/-- Closed instances of rawFn_fallback, one per half: a function url
descriptor next to a static headers descriptor stays raw in the request
URL when called with no parameter bag, and a function headers descriptor
next to a static url stays raw in the request header set. -/
theorem rawFn_fallback_witness :
    assemble { url := .fn (fun _ => "/x"), method := .GET,
               headers := some (.static []) } none
      = .ok { method := .GET, url := .rawFn (fun _ => "/x"),
              headers := some (.hs []), body := none }
    ∧ assemble { url := .str "/y", method := .GET,
                 headers := some (.fn (fun _ => .ok [])) } none
      = .ok { method := .GET, url := .str "/y",
              headers := some (.rawFn (fun _ => .ok [])), body := none } := by
  constructor
  · exact ((rawFn_fallback
      { url := .fn (fun _ => "/x"), method := .GET,
        headers := some (.static []) } none).1
      (fun _ => "/x") rfl rfl).2 (some (.hs [])) none rfl rfl
  · exact ((rawFn_fallback
      { url := .str "/y", method := .GET,
        headers := some (.fn (fun _ => .ok [])) } none).2
      (fun _ => .ok []) rfl rfl).2 none rfl

/-- The bearer-token rule never changes the request URL. -/
theorem setBearerToken_url (cfg : Config) (req : HttpRequest) :
    (setBearerToken cfg req).url = req.url := by
  unfold setBearerToken
  cases cfg.accessToken with
  | none => rfl
  | some tok => by_cases h : tok.isEmpty <;> simp [h]

/-- The base-URL rule never changes the request headers. -/
theorem prependBaseUrl_headers (cfg : Config) (req : HttpRequest) :
    (prependBaseUrl cfg req).headers = req.headers := by
  unfold prependBaseUrl
  by_cases h : startsWithSlash req.url <;> simp [h]

/-- The base-URL rule leaves a non-slash-starting URL alone. -/
theorem prependBaseUrl_of_not_slash (cfg : Config) (req : HttpRequest)
    (h : startsWithSlash req.url = false) : prependBaseUrl cfg req = req := by
  simp [prependBaseUrl, h]

/-- Writing the same header twice is the same as writing it once. -/
theorem setHeader_idem (hs : Headers) (k v : String) :
    setHeader (setHeader hs k v) k v = setHeader hs k v := by
  simp [setHeader, List.filter_filter]

/-- The bearer-token rule is idempotent. -/
theorem setBearerToken_idem (cfg : Config) (req : HttpRequest) :
    setBearerToken cfg (setBearerToken cfg req) = setBearerToken cfg req := by
  unfold setBearerToken
  cases cfg.accessToken with
  | none => rfl
  | some tok =>
    by_cases h : tok.isEmpty
    · simp [h]
    · simp [h, setHeader_idem]

/-- C7 counterexample: an access token that is defined but empty leaves
the request unchanged, so no Authorization header is set although the
claim requires one exactly when the token is defined. -/
theorem rewrite_token_counterexample :
    ({ url := "https://b", accessToken := some "" } : Config).accessToken.isSome
      = true
    ∧ rewrite { url := "https://b", accessToken := some "" }
        { url := "https://a", headers := [] }
      = { url := "https://a", headers := [] }
    ∧ List.lookup "authorization"
        (rewrite { url := "https://b", accessToken := some "" }
          { url := "https://a", headers := [] }).headers = none := by
  exact ⟨rfl, rfl, rfl⟩

/-- C7 (amended): the rewriter prepends the configured base URL exactly
when the request URL starts with a slash (absolute URLs unchanged), and
sets the bearer Authorization header exactly when the access token is
defined and non-empty; an undefined or empty token leaves the headers
unchanged, and with an undefined token only the URL rule acts. -/
theorem rewrite_rules (cfg : Config) (req : HttpRequest) :
    (startsWithSlash req.url = true → (rewrite cfg req).url = cfg.url ++ req.url)
    ∧ (startsWithSlash req.url = false → (rewrite cfg req).url = req.url)
    ∧ (∀ tok, cfg.accessToken = some tok → tok ≠ "" →
        (rewrite cfg req).headers =
          setHeader req.headers "authorization" ("Bearer " ++ tok))
    ∧ ((cfg.accessToken = none ∨ cfg.accessToken = some "") →
        (rewrite cfg req).headers = req.headers)
    ∧ (cfg.accessToken = none → rewrite cfg req = prependBaseUrl cfg req) := by
  have hu := setBearerToken_url cfg req
  refine ⟨?_, ?_, ?_, ?_, ?_⟩
  · intro h
    simp [rewrite, prependBaseUrl, hu, h]
  · intro h
    simp [rewrite, prependBaseUrl, hu, h]
  · intro tok hA hne
    have hie : tok.isEmpty = false := by
      cases he : tok.isEmpty
      · rfl
      · exact absurd ((String.isEmpty_iff tok).mp he) hne
    unfold rewrite
    rw [prependBaseUrl_headers]
    simp [setBearerToken, hA, hie]
  · rintro (hA | hA)
    · unfold rewrite
      rw [prependBaseUrl_headers]
      simp [setBearerToken, hA]
    · unfold rewrite
      rw [prependBaseUrl_headers]
      simp only [setBearerToken, hA]
      rfl
  · intro hA
    unfold rewrite
    simp [setBearerToken, hA]

/-- Closed instance of rewrite_rules: with base URL and a non-empty token,
a relative request URL is prefixed and the Authorization header is set. -/
theorem rewrite_rules_witness :
    (rewrite { url := "https://b", accessToken := some "t" }
        { url := "/p", headers := [] }).url = "https://b" ++ "/p"
    ∧ (rewrite { url := "https://b", accessToken := some "t" }
        { url := "/p", headers := [] }).headers
      = setHeader [] "authorization" ("Bearer " ++ "t") := by
  exact ⟨(rewrite_rules _ _).1 rfl,
         (rewrite_rules _ _).2.2.1 "t" rfl (by decide)⟩

/-- C8: the base-URL rule and the bearer-token rule commute on every
request and configuration, and the whole rewriter is idempotent on a
request whose URL is already absolute and whose Authorization header is
already set. -/
theorem rewrite_algebra (cfg : Config) (req : HttpRequest) :
    prependBaseUrl cfg (setBearerToken cfg req)
      = setBearerToken cfg (prependBaseUrl cfg req)
    ∧ (startsWithSlash req.url = false →
        (List.lookup "authorization" req.headers).isSome = true →
        rewrite cfg (rewrite cfg req) = rewrite cfg req) := by
  constructor
  · cases hA : cfg.accessToken with
    | none => simp [setBearerToken, hA]
    | some tok =>
      by_cases he : tok.isEmpty
      · simp [setBearerToken, hA, he]
      · by_cases hs : startsWithSlash req.url
        · simp [setBearerToken, prependBaseUrl, hA, he, hs]
        · simp [setBearerToken, prependBaseUrl, hA, he, hs]
  · intro hs _
    have h1 : rewrite cfg req = setBearerToken cfg req := by
      unfold rewrite
      exact prependBaseUrl_of_not_slash cfg _ (by rw [setBearerToken_url]; exact hs)
    rw [h1]
    unfold rewrite
    rw [prependBaseUrl_of_not_slash cfg _
      (by rw [setBearerToken_url, setBearerToken_url]; exact hs)]
    exact setBearerToken_idem cfg req

/-- Closed instance of rewrite_algebra: applying the rewriter twice to an
absolute-URL request with an Authorization header already present equals
applying it once. -/
theorem rewrite_algebra_witness :
    rewrite { url := "https://b", accessToken := some "t" }
        (rewrite { url := "https://b", accessToken := some "t" }
          { url := "https://a", headers := [("authorization", "x")] })
      = rewrite { url := "https://b", accessToken := some "t" }
          { url := "https://a", headers := [("authorization", "x")] } := by
  exact (rewrite_algebra _ _).2 rfl (by decide)

end HttpApiClient
